import Mathlib

/-!
Verification development for the utymap terrain compositing pipeline
(`src/terrain/TerraBuilder.cpp`) and the tree placement builder
(`core/src/builders/poi/TreeBuilder.cpp`).

The C++ code drives the ClipperLib boolean-polygon engine.  We embed the
pipeline shallowly:

* fixed-point integer points (`IntPoint`, 64-bit `cInt` idealised as `Int`),
  paths (`Path`, `Paths`) exactly as in ClipperLib;
* floating-point inputs (`double`) idealised as exact rationals (`ℚ`); the
  `double → cInt` conversion truncates toward zero (`truncQ`);
* the semantics of one `Clipper::Execute` call is expressed on point sets:
  a list of closed paths together with a fill rule denotes the region of
  points whose total winding number satisfies the rule
  (`pftEvenOdd`: odd, `pftNonZero`: nonzero, `pftPositive`: positive),
  and intersection / union / difference combine the subject and clip
  regions pointwise.  The solution paths returned by `Execute` are
  strictly simple, non-overlapping and positively oriented, so re-adding
  them to a later operation under any fill rule denotes the same region;
  we therefore model a solution directly as its region (`Region`), and
  adding several committed solutions as clip paths denotes their union.
* the polygon-offset collaborator (`ClipperOffset`, miter joins, open
  square caps) is outside the repository and is taken as a parameter
  (`offsetOp`) of the functions that use it.

Every function of `TerraBuilder.cpp` is translated below with its source
name, including its quirks: `createPathFromRect` pushes the same corner
four times, and the `Path p(n)` / `Paths paths(n)` constructor-plus-
`push_back` pattern *prepends* `n` default (zero) elements.
-/

namespace Utymap

/-- Fixed-point scale factor: `const uint64_t Scale = 1E8`. -/
def Scale : Int := 100000000

/-- Squared scale: `const uint64_t DoubleScale = Scale * Scale`. -/
def DoubleScale : Int := Scale * Scale

/-- ClipperLib `IntPoint` (64-bit integer coordinates). -/
structure IntPoint where
  x : Int
  y : Int
deriving DecidableEq, Repr

/-- ClipperLib `Path`: a closed polygon ring given by its vertices. -/
abbrev Path := List IntPoint

/-- ClipperLib `Paths`. -/
abbrev Paths := List Path

/-- Input `Point<double>`, idealised with exact rational coordinates. -/
structure Point where
  x : ℚ
  y : ℚ

/-- Input `MeshRegion` (holes are not processed by the reference, so only
the outer ring of points is modelled). -/
structure MeshRegion where
  points : List Point

/-- Input `Rectangle<double>`: the tile rectangle. -/
structure Rectangle where
  xMin : ℚ
  yMin : ℚ
  xMax : ℚ
  yMax : ℚ

/-- Truncation toward zero, the C++ `double → cInt` conversion applied to
an exact rational value. -/
def truncQ (q : ℚ) : Int := q.num.tdiv q.den

/-- Conversion of one input point to fixed-point integer coordinates:
`IntPoint(point.x*Scale, point.y*Scale)`. -/
def toFixed (p : Point) : IntPoint :=
  ⟨truncQ (p.x * (Scale : ℚ)), truncQ (p.y * (Scale : ℚ))⟩

/-! ### Winding-number semantics of ClipperLib fill rules -/

/-- Cross product of the edge `a → b` with the vector `a → p`. -/
def cross (a b p : IntPoint) : Int :=
  (b.x - a.x) * (p.y - a.y) - (b.y - a.y) * (p.x - a.x)

/-- Signed crossing contribution of the directed edge `a → b` to the
winding number of a closed path around `p` (standard half-open edge
crossing rule). -/
def edgeWind (a b p : IntPoint) : Int :=
  if a.y ≤ p.y ∧ p.y < b.y ∧ 0 < cross a b p then 1
  else if b.y ≤ p.y ∧ p.y < a.y ∧ cross a b p < 0 then -1
  else 0

/-- Winding number of a closed path around a point. -/
def windingPath (path : Path) (p : IntPoint) : Int :=
  ((path.zip (path.rotate 1)).map (fun e => edgeWind e.1 e.2 p)).sum

/-- Total winding number of a collection of closed paths around a point. -/
def windingPaths (ps : Paths) (p : IntPoint) : Int :=
  (ps.map (fun path => windingPath path p)).sum

/-- ClipperLib `PolyFillType`. -/
inductive PolyFillType where
  | evenOdd
  | nonZero
  | positive
  | negative
deriving DecidableEq, Repr

/-- Whether a winding number is filled under a given fill rule. -/
def fills (ft : PolyFillType) (w : Int) : Bool :=
  match ft with
  | .evenOdd => decide (w % 2 ≠ 0)
  | .nonZero => decide (w ≠ 0)
  | .positive => decide (0 < w)
  | .negative => decide (w < 0)

/-- A semantic region of fixed-point space: the denotation of one
`Clipper::Execute` solution. -/
abbrev Region : Type := IntPoint → Bool

/-- The region denoted by a collection of raw paths under a fill rule. -/
def fillRegion (ft : PolyFillType) (ps : Paths) : Region :=
  fun p => fills ft (windingPaths ps p)

/-- Union of a list of committed solution regions (several solutions added
together as clip paths denote the union of their regions). -/
def unionList (rs : List Region) : Region :=
  fun p => rs.any (fun r => r p)

/-! ### TerraBuilder.cpp, translated function by function -/

/-- Translation of `createPathFromRect`.  The source pushes
`IntPoint(tileRect.xMin*Scale, tileRect.yMin*Scale)` four times (the
`xMax` / `yMax` corners are never used), so the produced clip path is a
degenerate quadruple of one corner. -/
def createPathFromRect (tileRect : Rectangle) : Path :=
  let corner : IntPoint :=
    ⟨truncQ (tileRect.xMin * (Scale : ℚ)), truncQ (tileRect.yMin * (Scale : ℚ))⟩
  [corner, corner, corner, corner]

/-- Translation of `clipByRect`: intersect a previously computed solution
(the subject) with the single clip path, `Execute(ctIntersection, ...)`
with both fill types defaulted to `pftEvenOdd`. -/
def clipByRect (clipRect : Path) (subjects : Region) : Region :=
  fun p => subjects p && fillRegion .evenOdd [clipRect] p

/-- Translation of `buildPaths`.  `Paths paths(regions.size())` creates
`regions.size()` empty paths before the loop `push_back`s the built ones,
and `Path p(region.points.size())` creates that many `IntPoint(0, 0)`
entries before the inner loop `push_back`s the scaled points. -/
def buildPaths (regions : List MeshRegion) : Paths :=
  List.replicate regions.length [] ++
    regions.map (fun region =>
      List.replicate region.points.length (⟨0, 0⟩ : IntPoint) ++
        region.points.map toFixed)

/-- The fixed-point path built inline by the loop in `buildWater`:
`Path p(region.points.size())` followed by `push_back` of each scaled
point (the same constructor-size slip as in `buildPaths`). -/
def waterFixedPath (region : MeshRegion) : Path :=
  List.replicate region.points.length (⟨0, 0⟩ : IntPoint) ++
    region.points.map toFixed

/-- Translation of `buildWater`: all converted water paths are added as
subjects, `Execute(ctUnion, solution)` runs with the default `pftEvenOdd`
fill, and the solution is clipped by the context clip rectangle. -/
def buildWater (clipRect : Path) (regions : List MeshRegion) : Region :=
  clipByRect clipRect (fillRegion .evenOdd (regions.map waterFixedPath))

/-- Translation of `clipRoads`: `Execute(ctDifference, ..., pftPositive,
pftPositive)` of the road solution minus the committed water, then
`clipByRect`. -/
def clipRoads (clipRect : Path) (water : Region) (roads : Region) : Region :=
  clipByRect clipRect (fun p => roads p && !water p)

/-- Translation of `buildOffsetSolution`: each class key is offset by the
external `ClipperOffset` collaborator (parameter `offsetOp`, applied to
the paths built from that class's regions), every per-class offset
solution is added as a subject, and `Execute(ctUnion, ..., pftPositive,
pftPositive)` unions them. -/
def buildOffsetSolution (offsetOp : Int → Paths → Paths)
    (roads : List (Int × List MeshRegion)) : Region :=
  fillRegion .positive
    ((roads.map (fun r => offsetOp r.1 (buildPaths r.2))).flatten)

/-- Translation of `buildRoads`: the two offset solutions are computed,
`extrudedWalkRoads` is `Execute(ctDifference, ...)` (default fill) of the
walk solution minus the car solution, and both the car solution and the
extruded walk solution go through `clipRoads`.  Returns the committed
(car, walk) pair. -/
def buildRoads (offsetOp : Int → Paths → Paths) (clipRect : Path)
    (water : Region) (carMap walkMap : List (Int × List MeshRegion)) :
    Region × Region :=
  let carRoadPaths := buildOffsetSolution offsetOp carMap
  let walkRoadsPaths := buildOffsetSolution offsetOp walkMap
  let extrudedWalkRoads : Region := fun p => walkRoadsPaths p && !carRoadPaths p
  (clipRoads clipRect water carRoadPaths,
   clipRoads clipRect water extrudedWalkRoads)

/-- The per-key candidate patch of `buildSurfaces`: the key's regions are
converted by `buildPaths`, added as subjects, and unioned by
`Execute(ctUnion, surfacesUnion)` with the default `pftEvenOdd` fill. -/
def surfacePatch (regions : List MeshRegion) : Region :=
  fillRegion .evenOdd (buildPaths regions)

/-- Translation of `buildSurfaces`.  For each entry of the (key-ordered)
surface map: union the key's regions (default even-odd fill), subtract in
one `Execute(ctDifference, ..., pftPositive, pftPositive)` the committed
car roads, walk roads, water and the surfaces committed so far (all
previously committed solutions added as clip paths, denoting their
union), clip by the rectangle, and append the result to the committed
surfaces.  `prior` is the committed-surfaces region accumulated so far;
the returned list holds one committed region per map entry. -/
def buildSurfaces (clipRect : Path) (car walk water : Region)
    (prior : Region) : List (Int × List MeshRegion) → List Region
  | [] => []
  | (_, regs) :: rest =>
    let result : Region :=
      clipByRect clipRect
        (fun p => surfacePatch regs p && !(car p || walk p || water p || prior p))
    result :: buildSurfaces clipRect car walk water
      (fun p => prior p || result p) rest

/-- Translation of `buildBackground`: the context clip rectangle is the
sole subject, all four committed sets are the clips, and
`Execute(ctDifference, ..., pftPositive, pftPositive)` subtracts them. -/
def buildBackground (clipRect : Path) (car walk water surfaces : Region) :
    Region :=
  fun p =>
    fills .positive (windingPaths [clipRect] p) &&
      !(car p || walk p || water p || surfaces p)

/-- Output `Mesh<double>` (vertices, triangle indices); the context's
mesh member is default-constructed, i.e. empty. -/
structure Mesh where
  vertices : List ℚ := []
  triangles : List Int := []

/-- The pre-populated `TerraBuilder` state: `waters_`, `carRoads_`,
`walkRoads_` (unordered `RoadMap`s, modelled as association lists) and
`surfaces_` (an ordered `SurfaceMap`, modelled as a key-ascending
association list). -/
structure TerraBuilderState where
  waters_ : List MeshRegion
  carRoads_ : List (Int × List MeshRegion)
  walkRoads_ : List (Int × List MeshRegion)
  surfaces_ : List (Int × List MeshRegion)

/-- Final `TerraContext` after `TerraBuilder::build` has run the four
stages: `TerraContext context(1, 8)` also stores the grid splitter
configuration (cell size 1, 8 rounding digits), which no stage ever
reads. -/
structure TerraContext where
  gridCellSize : Int
  roundDigitCount : Int
  clipRect : Path
  water : Region
  carRoads : Region
  walkRoads : Region
  surfaces : List Region
  background : Region
  mesh : Mesh

/-- Translation of the body of `TerraBuilder::build`: construct the
context, fill it stage by stage (water → roads → surfaces → background).
The returned context gathers everything `build` computed; `build` itself
returns only the mesh member. -/
def buildContext (offsetOp : Int → Paths → Paths) (st : TerraBuilderState)
    (tileRect : Rectangle) : TerraContext :=
  let clipRect := createPathFromRect tileRect
  let water := buildWater clipRect st.waters_
  let roads := buildRoads offsetOp clipRect water st.carRoads_ st.walkRoads_
  let surfaces :=
    buildSurfaces clipRect roads.1 roads.2 water (fun _ => false) st.surfaces_
  let background :=
    buildBackground clipRect roads.1 roads.2 water (unionList surfaces)
  { gridCellSize := 1
    roundDigitCount := 8
    clipRect := clipRect
    water := water
    carRoads := roads.1
    walkRoads := roads.2
    surfaces := surfaces
    background := background
    mesh := {} }

/-- Translation of `TerraBuilder::build`: it returns `context.mesh`,
which no stage ever writes (`populateMesh` is never called). -/
def build (offsetOp : Int → Paths → Paths) (st : TerraBuilderState)
    (tileRect : Rectangle) : Mesh :=
  (buildContext offsetOp st tileRect).mesh

/-! ### populateMesh -/

/-- Signed double area sum of a closed path (ClipperLib `Area` numerator:
the shoelace sum). -/
def shoelace (path : Path) : Int :=
  ((path.zip (path.rotate 1)).map (fun e => e.1.x * e.2.y - e.2.x * e.1.y)).sum

/-- ClipperLib `Area`: half the shoelace sum (zero for fewer than three
vertices), exact over ℚ. -/
def area (path : Path) : ℚ :=
  if path.length < 3 then 0 else (shoelace path : ℚ) / 2

/-- The skip test of `populateMesh`:
`std::abs(area / DoubleScale) < 0.001`. -/
def smallArea (path : Path) : Bool :=
  decide (|area path / (DoubleScale : ℚ)| < 1 / 1000)

/-- The polygons `populateMesh` skips (the `continue` branch). -/
def populateMeshSkipped (paths : Paths) : Paths :=
  paths.filter (fun path => smallArea path)

/-- The polygons the `populateMesh` filter lets through to the (TODO)
triangulation step. -/
def populateMeshProcessed (paths : Paths) : Paths :=
  paths.filter (fun path => !smallArea path)

/-! ### TreeBuilder.cpp -/

/-- Geographic coordinate used by `TreeBuilder`. -/
structure GeoCoordinate where
  latitude : ℚ
  longitude : ℚ

/-- An entity `Way`: its coordinate list. -/
structure Way where
  coordinates : List GeoCoordinate

/-- Tree-mesh copy positions produced by one iteration of the outer loop
of `TreeBuilder::visitWay` for the consecutive pair `(p1, p2)`:
`treeCount = static_cast<int>(distanceInMeters / treeStepInMeters)` and a
copy is placed at `newPoint(p1, p2, (double)j / treeCount)` for
`j = 0 .. treeCount - 1`.  `GeoUtils::distance` and `GeoUtils::newPoint`
are external to the translated file and taken as parameters. -/
def segmentTreePositions
    (newPoint : GeoCoordinate → GeoCoordinate → ℚ → GeoCoordinate)
    (dist : GeoCoordinate → GeoCoordinate → ℚ)
    (treeStepInMeters : ℚ) (p1 p2 : GeoCoordinate) : List GeoCoordinate :=
  let treeCount : Int := truncQ (dist p1 p2 / treeStepInMeters)
  (List.range treeCount.toNat).map
    (fun (j : ℕ) => newPoint p1 p2 ((j : ℚ) / (treeCount : ℚ)))

/-- Translation of the placement loop of `TreeBuilder::visitWay`: the
outer loop visits every consecutive coordinate pair of the way and
concatenates the per-segment copy positions. -/
def visitWayTreePositions
    (newPoint : GeoCoordinate → GeoCoordinate → ℚ → GeoCoordinate)
    (dist : GeoCoordinate → GeoCoordinate → ℚ)
    (treeStepInMeters : ℚ) (way : Way) : List GeoCoordinate :=
  ((way.coordinates.zip way.coordinates.tail).map
    (fun e => segmentTreePositions newPoint dist treeStepInMeters e.1 e.2)).flatten

/-! ### Specification-side definitions

These definitions follow the specification's words, not the source; they
exist only to be compared against the translated code above. -/

/-- Specification-side denotation of the tile rectangle in fixed-point
space: the axis-aligned extent of the rectangle, scaled (half-open on the
max edges, matching the winding convention for boundary points). -/
def specTileRegion (tileRect : Rectangle) : Region :=
  fun p =>
    decide (truncQ (tileRect.xMin * (Scale : ℚ)) ≤ p.x ∧
      p.x < truncQ (tileRect.xMax * (Scale : ℚ)) ∧
      truncQ (tileRect.yMin * (Scale : ℚ)) ≤ p.y ∧
      p.y < truncQ (tileRect.yMax * (Scale : ℚ)))

/-- Specification-side water stage as the claim states it: each region is
converted to the path of exactly its scaled points, the union of all
paths is taken under the positive fill rule, and the union is intersected
with the tile rectangle. -/
def buildWaterSpec (tileRect : Rectangle) (regions : List MeshRegion) :
    Region :=
  fun p =>
    fills .positive
        (windingPaths (regions.map (fun region => region.points.map toFixed)) p) &&
      specTileRegion tileRect p

/-- Specification-side surface stage as the claim states it: per key in
order, the key's regions (exact scaled points) are unioned with positive
fill, the committed car roads, walk roads, water and earlier surfaces are
subtracted, and the remainder is intersected with the tile rectangle and
appended. -/
def buildSurfacesSpec (tileRect : Rectangle) (car walk water : Region)
    (prior : Region) : List (Int × List MeshRegion) → List Region
  | [] => []
  | (_, regs) :: rest =>
    let patch : Region :=
      fillRegion .positive (regs.map (fun region => region.points.map toFixed))
    let result : Region :=
      fun p =>
        patch p && !(car p || walk p || water p || prior p) &&
          specTileRegion tileRect p
    result :: buildSurfacesSpec tileRect car walk water
      (fun p => prior p || result p) rest

/-- Specification-side L-shaped region of the background-complement
scenario: the scaled tile (0,0)-(10,10) minus the scaled water square
(0,0)-(5,5). -/
def lShapeRegion : Region :=
  fun p =>
    (decide (0 ≤ p.x ∧ p.x < 10 * Scale ∧ 0 ≤ p.y ∧ p.y < 10 * Scale)) &&
      !(decide (0 ≤ p.x ∧ p.x < 5 * Scale ∧ 0 ≤ p.y ∧ p.y < 5 * Scale))

/-- Modelled from the spec: the Grid Snapper collaborator
(`LineGridSplitter`, whose source is not part of the translated files) is
configured with a coordinate rounding precision of `roundDigitCount`
decimal digits and deterministically quantizes a coordinate onto that
rounding grid. -/
def gridSnap (roundDigitCount : ℕ) (q : ℚ) : ℚ :=
  round (q * 10 ^ roundDigitCount) / 10 ^ roundDigitCount

/-- Modelled from the spec: snapping applied to both coordinates of an
input point, as required before fixed-point conversion. -/
def gridSnapPoint (roundDigitCount : ℕ) (p : Point) : Point :=
  ⟨gridSnap roundDigitCount p.x, gridSnap roundDigitCount p.y⟩

/-- Test fixture: a counter-clockwise axis-aligned rectangle path from
`(a, b)` to `(c, d)` (what a clip-rectangle path looks like when handed
to the stage functions). -/
def rectPath (a b c d : Int) : Path :=
  [⟨a, b⟩, ⟨c, b⟩, ⟨c, d⟩, ⟨a, d⟩]

/-- Test fixture: linear interpolation between two geographic
coordinates, a concrete instance of the `GeoUtils::newPoint`
collaborator contract (fraction 0 yields the first point). -/
def lerpGeo (p1 p2 : GeoCoordinate) (t : ℚ) : GeoCoordinate :=
  ⟨p1.latitude + (p2.latitude - p1.latitude) * t,
   p1.longitude + (p2.longitude - p1.longitude) * t⟩

/-- Test fixture: taxicab distance between two geographic coordinates, a
concrete nonnegative instance of the `GeoUtils::distance` collaborator. -/
def taxiDist (p1 p2 : GeoCoordinate) : ℚ :=
  |p2.latitude - p1.latitude| + |p2.longitude - p1.longitude|

/-! ### Helper lemmas -/

lemma truncQ_intCast (n : ℤ) : truncQ (n : ℚ) = n := by
  simp [truncQ]

lemma truncQ_eq_floor {q : ℚ} (h : 0 ≤ q) : truncQ q = ⌊q⌋ := by
  rw [truncQ, Rat.floor_def, Int.tdiv_eq_ediv (Rat.num_nonneg.mpr h)
    (Int.natCast_nonneg q.den)]

lemma mul_pos_iff_left {k m : Int} (hk : 0 < k) : 0 < k * m ↔ 0 < m := by
  constructor
  · intro h
    by_contra hm
    push_neg at hm
    nlinarith
  · exact fun h => mul_pos hk h

lemma mul_neg_iff_left {k m : Int} (hk : 0 < k) : k * m < 0 ↔ m < 0 := by
  constructor
  · intro h
    by_contra hm
    push_neg at hm
    nlinarith
  · intro h
    nlinarith

/-- Winding number of a counter-clockwise axis-aligned rectangle path:
one inside (half-open box), zero outside. -/
lemma windingPath_rectPath (a b c d : Int) (hac : a < c) (hbd : b < d)
    (p : IntPoint) :
    windingPath (rectPath a b c d) p =
      if a ≤ p.x ∧ p.x < c ∧ b ≤ p.y ∧ p.y < d then 1 else 0 := by
  have e0 : windingPath (rectPath a b c d) p =
      edgeWind ⟨a, b⟩ ⟨c, b⟩ p + (edgeWind ⟨c, b⟩ ⟨c, d⟩ p +
        (edgeWind ⟨c, d⟩ ⟨a, d⟩ p + (edgeWind ⟨a, d⟩ ⟨a, b⟩ p + 0))) := rfl
  have e1 : edgeWind ⟨a, b⟩ ⟨c, b⟩ p = 0 := by
    unfold edgeWind
    dsimp only
    split_ifs with h1 h2 <;> omega
  have e3 : edgeWind ⟨c, d⟩ ⟨a, d⟩ p = 0 := by
    unfold edgeWind
    dsimp only
    split_ifs with h1 h2 <;> omega
  have c2 : cross ⟨c, b⟩ ⟨c, d⟩ p = (d - b) * (c - p.x) := by
    unfold cross
    ring
  have hx2 : 0 < (d - b) * (c - p.x) ↔ p.x < c := by
    rw [mul_pos_iff_left (by omega : (0 : ℤ) < d - b)]
    omega
  have e2 : edgeWind ⟨c, b⟩ ⟨c, d⟩ p =
      if b ≤ p.y ∧ p.y < d ∧ p.x < c then 1 else 0 := by
    unfold edgeWind
    simp only [c2, hx2]
    split_ifs <;> omega
  have c4 : cross ⟨a, d⟩ ⟨a, b⟩ p = (d - b) * (p.x - a) := by
    unfold cross
    ring
  have hx4 : (d - b) * (p.x - a) < 0 ↔ p.x < a := by
    rw [mul_neg_iff_left (by omega : (0 : ℤ) < d - b)]
    omega
  have e4 : edgeWind ⟨a, d⟩ ⟨a, b⟩ p =
      if b ≤ p.y ∧ p.y < d ∧ p.x < a then -1 else 0 := by
    unfold edgeWind
    simp only [c4, hx4]
    split_ifs <;> omega
  rw [e0, e1, e2, e3, e4]
  split_ifs <;> omega

/-- Fill of a single counter-clockwise rectangle path under the even-odd
rule: the half-open box test. -/
lemma fillRegion_rectPath_evenOdd (a b c d : Int) (hac : a < c)
    (hbd : b < d) (p : IntPoint) :
    fillRegion .evenOdd [rectPath a b c d] p =
      decide (a ≤ p.x ∧ p.x < c ∧ b ≤ p.y ∧ p.y < d) := by
  have hw : windingPaths [rectPath a b c d] p =
      windingPath (rectPath a b c d) p := by
    simp [windingPaths]
  rw [fillRegion, hw, windingPath_rectPath a b c d hac hbd p]
  split_ifs with h
  · simp [fills, h]
  · simp [fills, h]

/-- Fill of a single counter-clockwise rectangle path under the positive
rule: the same half-open box test. -/
lemma fillRegion_rectPath_positive (a b c d : Int) (hac : a < c)
    (hbd : b < d) (p : IntPoint) :
    fillRegion .positive [rectPath a b c d] p =
      decide (a ≤ p.x ∧ p.x < c ∧ b ≤ p.y ∧ p.y < d) := by
  have hw : windingPaths [rectPath a b c d] p =
      windingPath (rectPath a b c d) p := by
    simp [windingPaths]
  rw [fillRegion, hw, windingPath_rectPath a b c d hac hbd p]
  split_ifs with h
  · simp [fills, h]
  · simp [fills, h]

lemma length_buildSurfaces (clip : Path) (car walk water : Region) :
    ∀ (entries : List (Int × List MeshRegion)) (prior : Region),
      (buildSurfaces clip car walk water prior entries).length = entries.length
  | [], _ => rfl
  | (_, _) :: rest, prior => by
    simp only [buildSurfaces, List.length_cons]
    rw [length_buildSurfaces clip car walk water rest]

/-- Pointwise characterisation of the committed region of the `i`-th
surface entry: the key's candidate patch, minus the committed car roads,
walk roads, water, the surfaces committed before this call and the
entries committed earlier in this call, clipped by the rectangle path. -/
lemma buildSurfaces_get (clip : Path) (car walk water : Region) :
    ∀ (entries : List (Int × List MeshRegion)) (prior : Region) (i : ℕ)
      (hi : i < (buildSurfaces clip car walk water prior entries).length)
      (hi' : i < entries.length) (p : IntPoint),
      (buildSurfaces clip car walk water prior entries).get ⟨i, hi⟩ p =
        (surfacePatch (entries.get ⟨i, hi'⟩).2 p &&
          !(car p || walk p || water p || prior p ||
            ((buildSurfaces clip car walk water prior entries).take i).any
              (fun r => r p)) &&
          fillRegion .evenOdd [clip] p) := by
  intro entries
  induction entries with
  | nil =>
    intro prior i hi hi' p
    exact absurd hi' (by simp)
  | cons e rest ih =>
    obtain ⟨k, regs⟩ := e
    intro prior i hi hi' p
    cases i with
    | zero =>
      simp only [buildSurfaces, List.get, List.take_zero, List.any_nil,
        clipByRect, Bool.or_false]
    | succ n =>
      have hn : n < (buildSurfaces clip car walk water
          (fun q => prior q ||
            clipByRect clip (fun q' => surfacePatch regs q' &&
              !(car q' || walk q' || water q' || prior q')) q) rest).length := by
        rw [length_buildSurfaces]
        rw [length_buildSurfaces, List.length_cons] at hi
        omega
      have hn' : n < rest.length := by
        simpa using hi'
      simp only [buildSurfaces, List.get, List.take_succ_cons, List.any_cons]
      rw [ih _ n hn hn' p]
      simp [Bool.or_assoc]

lemma truncQ_intMul_scale (m : ℤ) : truncQ ((m : ℚ) * (Scale : ℚ)) = m * Scale := by
  rw [show ((m : ℚ) * (Scale : ℚ)) = ((m * Scale : ℤ) : ℚ) by push_cast; ring]
  exact truncQ_intCast _

/-- Integer-valued rational, used to write concrete `double` inputs. -/
def qi (m : ℤ) : ℚ := (m : ℚ)

/-- Input point with integer-valued coordinates. -/
def qpt (m n : ℤ) : Point := ⟨qi m, qi n⟩

lemma toFixed_qpt (m n : ℤ) : toFixed (qpt m n) = ⟨m * Scale, n * Scale⟩ := by
  simp [toFixed, qpt, qi, truncQ_intMul_scale]

/-! ### Concrete inputs used by the counterexample scenarios -/

/-- The tile rectangle (0,0)-(10,10). -/
def tile10 : Rectangle := ⟨qi 0, qi 0, qi 10, qi 10⟩

/-- Water square (0,0)-(5,5) (counter-clockwise). -/
def waterSq5 : MeshRegion := ⟨[qpt 0 0, qpt 5 0, qpt 5 5, qpt 0 5]⟩

/-- Square (1,1)-(3,3) (counter-clockwise). -/
def sq13 : MeshRegion := ⟨[qpt 1 1, qpt 3 1, qpt 3 3, qpt 1 3]⟩

/-- Square (0,0)-(4,4) (counter-clockwise). -/
def sq04 : MeshRegion := ⟨[qpt 0 0, qpt 4 0, qpt 4 4, qpt 0 4]⟩

/-! ### Claim theorems -/

/-- C9: for every offset collaborator, every pre-populated builder state
and every tile rectangle, `TerraBuilder::build` returns a mesh with no
vertices and no triangles: the four stages only fill the committed region
sets, no stage calls `populateMesh`, and the returned mesh is the
context's default-constructed mesh. -/
theorem build_returns_empty_mesh (offsetOp : Int → Paths → Paths)
    (st : TerraBuilderState) (tileRect : Rectangle) :
    (build offsetOp st tileRect).vertices = [] ∧
      (build offsetOp st tileRect).triangles = [] :=
  ⟨rfl, rfl⟩

/-- C4 (code evaluated at the failing input): for the single region with
the single point (1, 2), `buildPaths` does not return the single path of
exactly the scaled point; the `Paths paths(n)` / `Path p(n)` constructor
slips make it return a leading empty path and a zero point before the
scaled point, so the path has twice the region's length. -/
theorem buildPaths_padded_output :
    buildPaths [⟨[qpt 1 2]⟩] =
      [[], [⟨0, 0⟩, ⟨100000000, 200000000⟩]] := by
  simp [buildPaths, toFixed_qpt, Scale]

/-- C5: the committed car-road set is the car offset solution minus the
committed water (positive fill), clipped by the rectangle; the committed
walk-road set is derived from `extrudedWalkRoads`, the walk offset
solution minus the car offset solution, with the committed water then
subtracted and the rectangle applied.  Consequently car roads vanish on
water, and walk roads vanish on water and on car roads. -/
theorem buildRoads_clipping (offsetOp : Int → Paths → Paths)
    (clipRect : Path) (water : Region)
    (carMap walkMap : List (Int × List MeshRegion)) :
    (∀ p, (buildRoads offsetOp clipRect water carMap walkMap).1 p =
      (buildOffsetSolution offsetOp carMap p && !water p &&
        fillRegion .evenOdd [clipRect] p)) ∧
    (∀ p, (buildRoads offsetOp clipRect water carMap walkMap).2 p =
      (buildOffsetSolution offsetOp walkMap p &&
        !buildOffsetSolution offsetOp carMap p && !water p &&
        fillRegion .evenOdd [clipRect] p)) ∧
    (∀ p, water p = true →
      (buildRoads offsetOp clipRect water carMap walkMap).1 p = false) ∧
    (∀ p, water p = true →
      (buildRoads offsetOp clipRect water carMap walkMap).2 p = false) ∧
    (∀ p, buildOffsetSolution offsetOp carMap p = true →
      (buildRoads offsetOp clipRect water carMap walkMap).2 p = false) := by
  refine ⟨fun p => ?_, fun p => ?_, fun p hw => ?_, fun p hw => ?_,
    fun p hc => ?_⟩ <;>
    simp [buildRoads, clipRoads, clipByRect, Bool.and_assoc, *]

/-- Witness for C5 at a concrete input: the all-true water region and the
identity offset collaborator; the committed car-road set is empty on the
water point. -/
theorem buildRoads_clipping_witness :
    (fun _ : IntPoint => true) (⟨0, 0⟩ : IntPoint) = true ∧
    (buildRoads (fun _ ps => ps) [] (fun _ => true) [] []).1 ⟨0, 0⟩ = false :=
  ⟨rfl, (buildRoads_clipping (fun _ ps => ps) [] (fun _ => true) [] []).2.2.1
    ⟨0, 0⟩ rfl⟩

/-- C7: a committed polygon is skipped by the `populateMesh` filter
exactly when the absolute value of its area divided by `Scale²` is below
0.001, and passes the filter exactly when it is at or above that
threshold; in integer terms the skip test is: fewer than three vertices,
or 500 times the absolute shoelace sum below `Scale²`. -/
theorem populateMesh_area_filter (paths : Paths) (path : Path) :
    (path ∈ populateMeshSkipped paths ↔
      path ∈ paths ∧ |area path / (DoubleScale : ℚ)| < 1 / 1000) ∧
    (path ∈ populateMeshProcessed paths ↔
      path ∈ paths ∧ ¬|area path / (DoubleScale : ℚ)| < 1 / 1000) ∧
    (smallArea path = true ↔
      (path.length < 3 ∨ 500 * |shoelace path| < DoubleScale)) := by
  have hDS : (DoubleScale : ℚ) = 10 ^ 16 := by
    norm_num [DoubleScale, Scale]
  have key : |area path / (DoubleScale : ℚ)| < 1 / 1000 ↔
      (path.length < 3 ∨ 500 * |shoelace path| < DoubleScale) := by
    rw [area]
    split_ifs with h
    · simp only [h, true_or, iff_true]
      rw [hDS]
      norm_num
    · simp only [h, false_or]
      rw [hDS, div_div, abs_div, abs_of_pos (by norm_num : (0 : ℚ) < 2 * 10 ^ 16),
        div_lt_iff₀ (by norm_num : (0 : ℚ) < 2 * 10 ^ 16)]
      have hcast : |((shoelace path : ℚ))| = ((|shoelace path| : ℤ) : ℚ) := by
        push_cast
        rfl
      rw [hcast]
      constructor
      · intro hlt
        have : ((500 * |shoelace path| : ℤ) : ℚ) < ((DoubleScale : ℤ) : ℚ) := by
          rw [hDS] at *
          push_cast at *
          linarith
        exact_mod_cast this
      · intro hlt
        have : ((500 * |shoelace path| : ℤ) : ℚ) < ((DoubleScale : ℤ) : ℚ) := by
          exact_mod_cast hlt
        rw [hDS] at this
        push_cast at this
        linarith
  refine ⟨?_, ?_, ?_⟩
  · simp [populateMeshSkipped, List.mem_filter, smallArea]
  · simp [populateMeshProcessed, List.mem_filter, smallArea]
  · rw [smallArea, decide_eq_true_eq]
    exact key

/-- C3 (amended): for a counter-clockwise rectangular clip path, the
water stage converts each region to its fixed-point path (one zero
placeholder point per region point followed by the scaled points),
computes the union of all those paths under the default even-odd fill
rule of `Execute` (so self-overlapping same-orientation regions cancel
pairwise instead of merging), intersects that union with the clip
rectangle, and commits the result as the context's water set. -/
theorem buildWater_evenOdd_union (a b c d : Int) (hac : a < c) (hbd : b < d)
    (regions : List MeshRegion) (p : IntPoint) :
    buildWater (rectPath a b c d) regions p =
      (fills .evenOdd (windingPaths (regions.map waterFixedPath) p) &&
        decide (a ≤ p.x ∧ p.x < c ∧ b ≤ p.y ∧ p.y < d)) := by
  rw [buildWater, clipByRect, fillRegion_rectPath_evenOdd a b c d hac hbd p]
  rfl

/-- Witness for C3 at a concrete input. -/
theorem buildWater_evenOdd_union_witness :
    (0 : Int) < 10 ∧
    buildWater (rectPath 0 0 10 10) [] ⟨1, 1⟩ =
      (fills .evenOdd
          (windingPaths (([] : List MeshRegion).map waterFixedPath) ⟨1, 1⟩) &&
        decide ((0 : Int) ≤ (⟨1, 1⟩ : IntPoint).x ∧ (⟨1, 1⟩ : IntPoint).x < 10 ∧
          (0 : Int) ≤ (⟨1, 1⟩ : IntPoint).y ∧ (⟨1, 1⟩ : IntPoint).y < 10)) :=
  ⟨by decide, buildWater_evenOdd_union 0 0 10 10 (by decide) (by decide) [] ⟨1, 1⟩⟩

/-- C3 counterexample: two identical water squares (1,1)-(3,3) on the
tile (0,0)-(10,10).  Under the claimed positive-fill union the point
(2,2) (scaled) is water; under the code's even-odd `Execute` default the
two coincident rings cancel and the committed water set is empty there. -/
theorem buildWater_positive_fill_refuted :
    buildWaterSpec tile10 [sq13, sq13] ⟨200000000, 200000000⟩ = true ∧
    buildWater (rectPath 0 0 (10 * Scale) (10 * Scale)) [sq13, sq13]
      ⟨200000000, 200000000⟩ = false := by
  have htile : specTileRegion tile10 ⟨200000000, 200000000⟩ = true := by
    simp only [specTileRegion, tile10, qi, truncQ_intMul_scale]
    decide
  constructor
  · rw [buildWaterSpec]
    simp only [htile, Bool.and_true, List.map, sq13, toFixed_qpt]
    decide
  · rw [buildWater, clipByRect]
    have hrect : fillRegion .evenOdd [rectPath 0 0 (10 * Scale) (10 * Scale)]
        (⟨200000000, 200000000⟩ : IntPoint) = true := by
      rw [fillRegion_rectPath_evenOdd 0 0 (10 * Scale) (10 * Scale)
        (by decide) (by decide)]
      decide
    rw [hrect, Bool.and_true]
    simp only [List.map, waterFixedPath, sq13, toFixed_qpt]
    decide

/-- C1 (code evaluated at the failing input): on the tile (0,0)-(10,10)
with one water square (0,0)-(5,5), no roads and no surfaces, the point
(7,7) (scaled) lies in the tile rectangle but in none of the five
committed region sets, so their union does not cover the tile: the clip
path built by `createPathFromRect` is the corner (xMin, yMin) repeated
four times, a degenerate ring that empties every committed set. -/
theorem build_union_misses_tile_point :
    specTileRegion tile10 ⟨700000000, 700000000⟩ = true ∧
    (buildContext (fun _ _ => []) ⟨[waterSq5], [], [], []⟩ tile10).clipRect =
      [⟨0, 0⟩, ⟨0, 0⟩, ⟨0, 0⟩, ⟨0, 0⟩] ∧
    (buildContext (fun _ _ => []) ⟨[waterSq5], [], [], []⟩ tile10).water
      ⟨700000000, 700000000⟩ = false ∧
    (buildContext (fun _ _ => []) ⟨[waterSq5], [], [], []⟩ tile10).carRoads
      ⟨700000000, 700000000⟩ = false ∧
    (buildContext (fun _ _ => []) ⟨[waterSq5], [], [], []⟩ tile10).walkRoads
      ⟨700000000, 700000000⟩ = false ∧
    (buildContext (fun _ _ => []) ⟨[waterSq5], [], [], []⟩ tile10).surfaces = [] ∧
    (buildContext (fun _ _ => []) ⟨[waterSq5], [], [], []⟩ tile10).background
      ⟨700000000, 700000000⟩ = false := by
  have hclip : createPathFromRect tile10 = [⟨0, 0⟩, ⟨0, 0⟩, ⟨0, 0⟩, ⟨0, 0⟩] := by
    simp only [createPathFromRect, tile10, qi, truncQ_intMul_scale]
    decide
  have hfe : fillRegion .evenOdd
      [([⟨0, 0⟩, ⟨0, 0⟩, ⟨0, 0⟩, ⟨0, 0⟩] : Path)]
      (⟨700000000, 700000000⟩ : IntPoint) = false := by
    decide
  have hfp : fills .positive (windingPaths
      [([⟨0, 0⟩, ⟨0, 0⟩, ⟨0, 0⟩, ⟨0, 0⟩] : Path)]
      (⟨700000000, 700000000⟩ : IntPoint)) = false := by
    decide
  refine ⟨?_, ?_, ?_, ?_, ?_, ?_, ?_⟩
  · simp only [specTileRegion, tile10, qi, truncQ_intMul_scale]
    decide
  · simp only [buildContext, hclip]
  · simp only [buildContext, hclip, buildWater, clipByRect, hfe, Bool.and_false]
  · simp only [buildContext, hclip, buildRoads, clipRoads, clipByRect, hfe,
      Bool.and_false]
  · simp only [buildContext, hclip, buildRoads, clipRoads, clipByRect, hfe,
      Bool.and_false]
  · simp only [buildContext, hclip, buildSurfaces]
  · simp only [buildContext, hclip, buildBackground, hfp, Bool.false_and]

/-- C2 (code evaluated at the failing input): in the background-complement
scenario — tile (0,0)-(10,10), one water square (0,0)-(5,5), no roads, no
surfaces — the point (7,7) (scaled) belongs to the claimed L-shaped
complement, yet the committed background of `build` is empty there,
because the clip path from `createPathFromRect` is degenerate.  Handing
`buildBackground` a correct counter-clockwise tile path instead (third
conjunct) does put the point in the background, confirming the slip is in
`createPathFromRect`, not in the stage. -/
theorem build_background_not_lshape :
    lShapeRegion ⟨700000000, 700000000⟩ = true ∧
    (buildContext (fun _ _ => []) ⟨[waterSq5], [], [], []⟩ tile10).background
      ⟨700000000, 700000000⟩ = false ∧
    (let properRect := rectPath 0 0 (10 * Scale) (10 * Scale)
     let water := buildWater properRect [waterSq5]
     let roads := buildRoads (fun _ _ => []) properRect water [] []
     let surfaces :=
       buildSurfaces properRect roads.1 roads.2 water (fun _ => false) []
     buildBackground properRect roads.1 roads.2 water (unionList surfaces)
       ⟨700000000, 700000000⟩ = true) := by
  have hclip : createPathFromRect tile10 = [⟨0, 0⟩, ⟨0, 0⟩, ⟨0, 0⟩, ⟨0, 0⟩] := by
    simp only [createPathFromRect, tile10, qi, truncQ_intMul_scale]
    decide
  have hfp : fills .positive (windingPaths
      [([⟨0, 0⟩, ⟨0, 0⟩, ⟨0, 0⟩, ⟨0, 0⟩] : Path)]
      (⟨700000000, 700000000⟩ : IntPoint)) = false := by
    decide
  refine ⟨by decide, ?_, ?_⟩
  · simp only [buildContext, hclip, buildBackground, hfp, Bool.false_and]
  · simp only [buildWater, buildRoads, buildOffsetSolution, clipRoads,
      clipByRect, buildSurfaces, buildBackground, unionList, waterFixedPath,
      waterSq5, toFixed_qpt, List.map]
    decide

/-- The committed surfaces of a fresh context (empty prior surfaces) with
a counter-clockwise rectangular clip path. -/
def committedSurfaces (a b c d : Int) (car walk water : Region)
    (entries : List (Int × List MeshRegion)) : List Region :=
  buildSurfaces (rectPath a b c d) car walk water (fun _ => false) entries

lemma committedSurfaces_get (a b c d : Int) (hac : a < c) (hbd : b < d)
    (car walk water : Region) (entries : List (Int × List MeshRegion))
    (i : ℕ) (hi : i < (committedSurfaces a b c d car walk water entries).length)
    (hi' : i < entries.length) (p : IntPoint) :
    (committedSurfaces a b c d car walk water entries).get ⟨i, hi⟩ p =
      (surfacePatch (entries.get ⟨i, hi'⟩).2 p &&
        !(car p || walk p || water p ||
          ((committedSurfaces a b c d car walk water entries).take i).any
            (fun r => r p)) &&
        decide (a ≤ p.x ∧ p.x < c ∧ b ≤ p.y ∧ p.y < d)) := by
  unfold committedSurfaces
  rw [buildSurfaces_get (rectPath a b c d) car walk water entries
    (fun _ => false) i hi hi' p,
    fillRegion_rectPath_evenOdd a b c d hac hbd p]
  simp only [Bool.or_false]

/-- C6 (amended): the surface stage processes the surface map's entries
in strictly ascending key order; for each entry it unions that key's
regions under the default even-odd fill rule of `Execute` (not positive
fill), subtracts as one positive-fill multi-clip difference the committed
car roads, walk roads, water and the surfaces committed from earlier
keys, intersects the remainder with the clip rectangle, and appends it to
the committed surfaces.  Hence no two entries' committed regions overlap,
and the earliest (lowest-key) entry whose candidate patch contains a
contested point wins it. -/
theorem buildSurfaces_ascending_priority (a b c d : Int) (hac : a < c)
    (hbd : b < d) (car walk water : Region)
    (entries : List (Int × List MeshRegion))
    (hsorted : (entries.map Prod.fst).Pairwise (· < ·)) :
    (committedSurfaces a b c d car walk water entries).length =
        entries.length ∧
    (∀ i j : Fin entries.length, i < j →
      (entries.get i).1 < (entries.get j).1) ∧
    (∀ (i : ℕ)
      (hi : i < (committedSurfaces a b c d car walk water entries).length)
      (hi' : i < entries.length) (p : IntPoint),
      (committedSurfaces a b c d car walk water entries).get ⟨i, hi⟩ p =
        (surfacePatch (entries.get ⟨i, hi'⟩).2 p &&
          !(car p || walk p || water p ||
            ((committedSurfaces a b c d car walk water entries).take i).any
              (fun r => r p)) &&
          decide (a ≤ p.x ∧ p.x < c ∧ b ≤ p.y ∧ p.y < d))) ∧
    (∀ (i j : ℕ)
      (hi : i < (committedSurfaces a b c d car walk water entries).length)
      (hj : j < (committedSurfaces a b c d car walk water entries).length),
      i ≠ j → ∀ p : IntPoint,
      ¬((committedSurfaces a b c d car walk water entries).get ⟨i, hi⟩ p = true ∧
        (committedSurfaces a b c d car walk water entries).get ⟨j, hj⟩ p = true)) ∧
    (∀ (i : ℕ)
      (hi : i < (committedSurfaces a b c d car walk water entries).length)
      (hi' : i < entries.length) (p : IntPoint),
      surfacePatch (entries.get ⟨i, hi'⟩).2 p = true →
      (∀ (k : ℕ) (hk' : k < entries.length), k < i →
        surfacePatch (entries.get ⟨k, hk'⟩).2 p = false) →
      car p = false → walk p = false → water p = false →
      decide (a ≤ p.x ∧ p.x < c ∧ b ≤ p.y ∧ p.y < d) = true →
      (committedSurfaces a b c d car walk water entries).get ⟨i, hi⟩ p = true) := by
  have hlen : (committedSurfaces a b c d car walk water entries).length =
      entries.length := by
    unfold committedSurfaces
    exact length_buildSurfaces (rectPath a b c d) car walk water entries _
  -- an entry committed `true` at `p` forces every earlier entry to be
  -- `false` at `p` (the earlier output is among the subtracted clips)
  have hall : ∀ (j : ℕ)
      (hj : j < (committedSurfaces a b c d car walk water entries).length)
      (p : IntPoint),
      (committedSurfaces a b c d car walk water entries).get ⟨j, hj⟩ p = true →
      ∀ (i : ℕ)
        (hi : i < (committedSurfaces a b c d car walk water entries).length),
        i < j →
        (committedSurfaces a b c d car walk water entries).get ⟨i, hi⟩ p =
          false := by
    intro j hj p htrue i hi hij
    have hj' : j < entries.length := hlen ▸ hj
    rw [committedSurfaces_get a b c d hac hbd car walk water entries j hj hj' p]
      at htrue
    simp only [Bool.and_eq_true, Bool.not_eq_true', Bool.or_eq_false_iff]
      at htrue
    have hany := htrue.1.2.2
    have hmem : (committedSurfaces a b c d car walk water entries).get ⟨i, hi⟩ ∈
        (committedSurfaces a b c d car walk water entries).take j := by
      rw [List.get_take (committedSurfaces a b c d car walk water entries) hi hij]
      exact List.get_mem _ _ _
    have := List.any_eq_false.mp hany _ hmem
    exact Bool.eq_false_iff.mpr this
  refine ⟨hlen, ?_, ?_, ?_, ?_⟩
  · intro i j hij
    have hp := List.pairwise_iff_get.mp hsorted
      ⟨i.1, by rw [List.length_map]; exact i.2⟩
      ⟨j.1, by rw [List.length_map]; exact j.2⟩ hij
    rw [List.get_map, List.get_map] at hp
    exact hp
  · intro i hi hi' p
    exact committedSurfaces_get a b c d hac hbd car walk water entries i hi hi' p
  · intro i j hi hj hne p ⟨h1, h2⟩
    rcases lt_or_gt_of_ne hne with h | h
    · exact absurd h1 (by rw [hall j hj p h2 i hi h]; simp)
    · exact absurd h2 (by rw [hall i hi p h1 j hj h]; simp)
  · intro i hi hi' p hpatch hlow hcar hwalk hwater hrect
    rw [committedSurfaces_get a b c d hac hbd car walk water entries i hi hi' p]
    have hany : ((committedSurfaces a b c d car walk water entries).take i).any
        (fun r => r p) = false := by
      rw [List.any_eq_false]
      intro x hx
      obtain ⟨n, hget⟩ := List.mem_iff_get.mp hx
      have hub1 : (List.take i
            (committedSurfaces a b c d car walk water entries)).length ≤ i := by
        rw [List.length_take]
        exact min_le_left _ _
      have hub2 : (List.take i
            (committedSurfaces a b c d car walk water entries)).length ≤
          (committedSurfaces a b c d car walk water entries).length := by
        rw [List.length_take]
        exact min_le_right _ _
      have hn_lt_i : (n : ℕ) < i := lt_of_lt_of_le n.2 hub1
      have hn_len : (n : ℕ) <
          (committedSurfaces a b c d car walk water entries).length :=
        lt_of_lt_of_le n.2 hub2
      have hn' : (n : ℕ) < entries.length := hlen ▸ hn_len
      subst hget
      have hswap : (List.take i
            (committedSurfaces a b c d car walk water entries)).get n =
          (committedSurfaces a b c d car walk water entries).get
            ⟨(n : ℕ), hn_len⟩ :=
        (List.get_take (committedSurfaces a b c d car walk water entries)
          hn_len hn_lt_i).symm
      rw [hswap,
        committedSurfaces_get a b c d hac hbd car walk water entries
          (n : ℕ) hn_len hn' p,
        hlow (n : ℕ) hn' hn_lt_i]
      simp
    rw [hpatch, hcar, hwalk, hwater, hany, hrect]
    simp

/-- Witness for C6 at a concrete input: two surface entries with
ascending keys 1 and 2; the committed list has one region per entry. -/
theorem buildSurfaces_ascending_priority_witness :
    (0 : Int) < 10 * Scale ∧
    ((([(1, [sq13]), (2, [sq04])] :
        List (Int × List MeshRegion)).map Prod.fst).Pairwise (· < ·)) ∧
    (committedSurfaces 0 0 (10 * Scale) (10 * Scale) (fun _ => false)
        (fun _ => false) (fun _ => false) [(1, [sq13]), (2, [sq04])]).length =
      ([(1, [sq13]), (2, [sq04])] : List (Int × List MeshRegion)).length :=
  ⟨by decide, by decide,
    (buildSurfaces_ascending_priority 0 0 (10 * Scale) (10 * Scale)
      (by decide) (by decide) (fun _ => false) (fun _ => false)
      (fun _ => false) [(1, [sq13]), (2, [sq04])] (by decide)).1⟩

/-- C6 counterexample: one surface entry whose regions are two identical
squares (0,0)-(4,4) on the tile (0,0)-(10,10) with no roads and no water.
Under the claimed positive-fill per-key union the committed entry covers
the point (2,2) (scaled); under the code's default even-odd `Execute` the
two coincident rings cancel and the committed entry is empty there. -/
theorem buildSurfaces_positive_fill_refuted :
    ((buildSurfacesSpec tile10 (fun _ => false) (fun _ => false)
        (fun _ => false) (fun _ => false) [(1, [sq04, sq04])]).map
      (fun r => r ⟨200000000, 200000000⟩)) = [true] ∧
    ((buildSurfaces (rectPath 0 0 (10 * Scale) (10 * Scale)) (fun _ => false)
        (fun _ => false) (fun _ => false) (fun _ => false)
        [(1, [sq04, sq04])]).map
      (fun r => r ⟨200000000, 200000000⟩)) = [false] := by
  constructor
  · simp only [buildSurfacesSpec, fillRegion, specTileRegion, tile10, qi,
      truncQ_intMul_scale, List.map, sq04, toFixed_qpt]
    decide
  · simp only [buildSurfaces, surfacePatch, buildPaths, clipByRect,
      fillRegion, List.map, sq04, toFixed_qpt]
    decide

/-- C8 (code evaluated at the failing input): for the water region whose
single point has x = 3/(2·10⁸), the inline conversion of `buildWater`
scales the raw coordinate (fixed-point x-value 1, after the zero
placeholder of the constructor slip), whereas quantizing the coordinate
first with the spec-modelled 8-digit grid snapper — as the claim requires
for every coordinate — yields fixed-point x-value 2.  No stage of
`TerraBuilder.cpp` ever invokes the `LineGridSplitter` member that the
context carries for this purpose. -/
theorem buildWater_skips_grid_snapper :
    waterFixedPath ⟨[⟨3 / (2 * 10 ^ 8), 0⟩]⟩ = [⟨0, 0⟩, ⟨1, 0⟩] ∧
    (MeshRegion.points ⟨[⟨3 / (2 * 10 ^ 8), 0⟩]⟩).map
      (fun pt => toFixed (gridSnapPoint 8 pt)) = [⟨2, 0⟩] := by
  constructor
  · simp only [waterFixedPath, List.map, List.length_cons, List.length_nil,
      List.replicate, toFixed]
    norm_num [truncQ, Scale]
    decide
  · simp only [List.map, toFixed, gridSnapPoint]
    have hs1 : gridSnap 8 (3 / (2 * 10 ^ 8) : ℚ) = 1 / 50000000 := by
      rw [gridSnap]
      norm_num [round_eq]
    have hs0 : gridSnap 8 (0 : ℚ) = 0 := by
      rw [gridSnap]
      norm_num
    rw [hs1, hs0]
    norm_num [truncQ, Scale]

/-- C10: in `TreeBuilder::visitWay`, for every consecutive coordinate
pair the number of placed tree-mesh copies is the floor of the segment
distance divided by the tree step, the copies sit at the interpolated
fractions j / treeCount for j = 0 .. treeCount - 1 (so the first copy
sits at the segment's first point and the fraction 1 — the second point —
is never used), and a segment shorter than the step receives no copies at
all. -/
theorem visitWay_tree_placement
    (newPoint : GeoCoordinate → GeoCoordinate → ℚ → GeoCoordinate)
    (dist : GeoCoordinate → GeoCoordinate → ℚ) (step : ℚ) (way : Way)
    (hlen : 2 ≤ way.coordinates.length) (hstep : 0 < step)
    (hdist : ∀ p1 p2, 0 ≤ dist p1 p2)
    (hnew : ∀ p1 p2, newPoint p1 p2 0 = p1) :
    (visitWayTreePositions newPoint dist step way).length =
      ((way.coordinates.zip way.coordinates.tail).map
        (fun e => (⌊dist e.1 e.2 / step⌋).toNat)).sum ∧
    (∀ e ∈ way.coordinates.zip way.coordinates.tail,
      segmentTreePositions newPoint dist step e.1 e.2 =
        (List.range (⌊dist e.1 e.2 / step⌋).toNat).map
          (fun (j : ℕ) => newPoint e.1 e.2
            ((j : ℚ) / ((⌊dist e.1 e.2 / step⌋ : ℤ) : ℚ)))) ∧
    (∀ e ∈ way.coordinates.zip way.coordinates.tail,
      0 < ⌊dist e.1 e.2 / step⌋ →
      (segmentTreePositions newPoint dist step e.1 e.2).head? = some e.1) ∧
    (∀ e ∈ way.coordinates.zip way.coordinates.tail,
      dist e.1 e.2 < step →
      segmentTreePositions newPoint dist step e.1 e.2 = []) ∧
    (∀ n : ℤ, ∀ j : ℕ, (j : ℤ) < n → ((j : ℚ) / ((n : ℤ) : ℚ)) < 1) := by
  have htr : ∀ p1 p2, truncQ (dist p1 p2 / step) = ⌊dist p1 p2 / step⌋ :=
    fun p1 p2 => truncQ_eq_floor (div_nonneg (hdist p1 p2) hstep.le)
  have hseg : ∀ e : GeoCoordinate × GeoCoordinate,
      segmentTreePositions newPoint dist step e.1 e.2 =
        (List.range (⌊dist e.1 e.2 / step⌋).toNat).map
          (fun (j : ℕ) => newPoint e.1 e.2
            ((j : ℚ) / ((⌊dist e.1 e.2 / step⌋ : ℤ) : ℚ))) := by
    intro e
    simp only [segmentTreePositions, htr e.1 e.2]
  refine ⟨?_, fun e _ => hseg e, ?_, ?_, ?_⟩
  · rw [visitWayTreePositions, List.length_flatten, List.map_map]
    congr 1
    apply List.map_congr_left
    intro e _
    simp [hseg e]
  · intro e _ hpos
    rw [hseg e]
    obtain ⟨m, hm⟩ : ∃ m, (⌊dist e.1 e.2 / step⌋).toNat = m + 1 :=
      ⟨(⌊dist e.1 e.2 / step⌋).toNat - 1, by omega⟩
    rw [hm, List.range_succ_eq_map]
    simp [hnew e.1 e.2]
  · intro e _ hshort
    rw [hseg e]
    have hz : ⌊dist e.1 e.2 / step⌋ = 0 := by
      rw [Int.floor_eq_zero_iff]
      exact ⟨div_nonneg (hdist e.1 e.2) hstep.le,
        (div_lt_one hstep).mpr hshort⟩
    rw [hz]
    simp
  · intro n j hj
    have hn : (0 : ℚ) < ((n : ℤ) : ℚ) := by
      exact_mod_cast lt_of_le_of_lt (Int.natCast_nonneg j) hj
    rw [div_lt_one hn]
    exact_mod_cast hj

/-- Witness for C10 at a concrete input: linear interpolation, taxicab
distance, step 2, one segment of length 5. -/
theorem visitWay_tree_placement_witness :
    2 ≤ (Way.mk [⟨0, 0⟩, ⟨5, 0⟩]).coordinates.length ∧
    (0 : ℚ) < 2 ∧
    (visitWayTreePositions lerpGeo taxiDist 2 ⟨[⟨0, 0⟩, ⟨5, 0⟩]⟩).length =
      (((Way.mk [⟨0, 0⟩, ⟨5, 0⟩]).coordinates.zip
          (Way.mk [⟨0, 0⟩, ⟨5, 0⟩]).coordinates.tail).map
        (fun e => (⌊taxiDist e.1 e.2 / 2⌋).toNat)).sum :=
  ⟨by decide, by decide,
    (visitWay_tree_placement lerpGeo taxiDist 2 ⟨[⟨0, 0⟩, ⟨5, 0⟩]⟩
      (by decide) (by decide)
      (fun p1 p2 => add_nonneg (abs_nonneg _) (abs_nonneg _))
      (fun p1 p2 => by simp [lerpGeo])).1⟩

end Utymap
